import Mathlib

/-!
Verification development for the agent-dog observability service.

The TypeScript sources are shallowly embedded: JavaScript runtime values
(`unknown`) become `JValue`; JS strings are modelled as `List Char` (JS
`.length`, `.slice` and `+` become `List.length`, `List.take` and `++`);
machine timestamps are `Int` milliseconds; the SQLite-backed store becomes a
pure state (`Store`) with explicit state-passing versions of the db layer
functions; `Date.now()` and `crypto.randomUUID()` become explicit `now` and
`freshId` parameters.  Definitions follow `src/normalize.ts`,
`src/db/index.ts` (its current generation, the one with reactivation and
`deriveStatus`), `src/routes.ts` and the server factory.  Components of the
repository that are exercised by its tests but whose implementation file is
not in the source tree (the opencode normalizer branch and the auth
admission middleware) are modelled from the specification and are marked
`Modelled from the spec:` in their doc comments.
-/

namespace AgentDog

/-- A JavaScript runtime value (the TS `unknown`).  JS strings are
`List Char` so that `.length`/`.slice` obey the list lemmas; `jnull` stands
for both `null` and `undefined` when a value (rather than a missing
property) is inspected. -/
inductive JValue where
  | jnull : JValue
  | jbool : Bool → JValue
  | jnum : Int → JValue
  | jstr : List Char → JValue
  | jarr : List JValue → JValue
  | jobj : List (String × JValue) → JValue
deriving Repr

mutual

def decEqJ : (a b : JValue) → Decidable (a = b)
  | .jnull, .jnull => isTrue rfl
  | .jbool a, .jbool b =>
      match decEq a b with
      | isTrue h => isTrue (by rw [h])
      | isFalse h => isFalse (fun hh => by cases hh; exact h rfl)
  | .jnum a, .jnum b =>
      match decEq a b with
      | isTrue h => isTrue (by rw [h])
      | isFalse h => isFalse (fun hh => by cases hh; exact h rfl)
  | .jstr a, .jstr b =>
      match decEq a b with
      | isTrue h => isTrue (by rw [h])
      | isFalse h => isFalse (fun hh => by cases hh; exact h rfl)
  | .jarr a, .jarr b =>
      match decEqJList a b with
      | isTrue h => isTrue (by rw [h])
      | isFalse h => isFalse (fun hh => by cases hh; exact h rfl)
  | .jobj a, .jobj b =>
      match decEqJFields a b with
      | isTrue h => isTrue (by rw [h])
      | isFalse h => isFalse (fun hh => by cases hh; exact h rfl)
  | .jnull, .jbool _ => isFalse nofun
  | .jnull, .jnum _ => isFalse nofun
  | .jnull, .jstr _ => isFalse nofun
  | .jnull, .jarr _ => isFalse nofun
  | .jnull, .jobj _ => isFalse nofun
  | .jbool _, .jnull => isFalse nofun
  | .jbool _, .jnum _ => isFalse nofun
  | .jbool _, .jstr _ => isFalse nofun
  | .jbool _, .jarr _ => isFalse nofun
  | .jbool _, .jobj _ => isFalse nofun
  | .jnum _, .jnull => isFalse nofun
  | .jnum _, .jbool _ => isFalse nofun
  | .jnum _, .jstr _ => isFalse nofun
  | .jnum _, .jarr _ => isFalse nofun
  | .jnum _, .jobj _ => isFalse nofun
  | .jstr _, .jnull => isFalse nofun
  | .jstr _, .jbool _ => isFalse nofun
  | .jstr _, .jnum _ => isFalse nofun
  | .jstr _, .jarr _ => isFalse nofun
  | .jstr _, .jobj _ => isFalse nofun
  | .jarr _, .jnull => isFalse nofun
  | .jarr _, .jbool _ => isFalse nofun
  | .jarr _, .jnum _ => isFalse nofun
  | .jarr _, .jstr _ => isFalse nofun
  | .jarr _, .jobj _ => isFalse nofun
  | .jobj _, .jnull => isFalse nofun
  | .jobj _, .jbool _ => isFalse nofun
  | .jobj _, .jnum _ => isFalse nofun
  | .jobj _, .jstr _ => isFalse nofun
  | .jobj _, .jarr _ => isFalse nofun

def decEqJList : (a b : List JValue) → Decidable (a = b)
  | [], [] => isTrue rfl
  | [], _ :: _ => isFalse nofun
  | _ :: _, [] => isFalse nofun
  | x :: xs, y :: ys =>
      match decEqJ x y, decEqJList xs ys with
      | isTrue h1, isTrue h2 => isTrue (by rw [h1, h2])
      | isFalse h1, _ => isFalse (fun hh => by cases hh; exact h1 rfl)
      | _, isFalse h2 => isFalse (fun hh => by cases hh; exact h2 rfl)

def decEqJFields : (a b : List (String × JValue)) → Decidable (a = b)
  | [], [] => isTrue rfl
  | [], _ :: _ => isFalse nofun
  | _ :: _, [] => isFalse nofun
  | (k1, v1) :: t1, (k2, v2) :: t2 =>
      match decEq k1 k2, decEqJ v1 v2, decEqJFields t1 t2 with
      | isTrue h1, isTrue h2, isTrue h3 => isTrue (by rw [h1, h2, h3])
      | isFalse h1, _, _ => isFalse (fun hh => by cases hh; exact h1 rfl)
      | _, isFalse h2, _ => isFalse (fun hh => by cases hh; exact h2 rfl)
      | _, _, isFalse h3 => isFalse (fun hh => by cases hh; exact h3 rfl)

end

instance : DecidableEq JValue := decEqJ

/-- Shorthand: a JS string value from a Lean string literal. -/
def js (s : String) : JValue := .jstr s.data

/-- JS property access `obj[k]`: `none` models `undefined` (absent key). -/
def getField (ev : List (String × JValue)) (k : String) : Option JValue :=
  ev.lookup k

/-- JS nullish coalescing `a ?? b`: `b` exactly when `a` is absent
(`undefined`) or `null`. -/
def jsOr (a : Option JValue) (b : JValue) : JValue :=
  match a with
  | none => b
  | some .jnull => b
  | some v => v

/-- A chain `ev.k1 ?? ev.k2 ?? ... ?? dflt` of property reads. -/
def pick (ev : List (String × JValue)) (keys : List String) (dflt : JValue) : JValue :=
  match keys with
  | [] => dflt
  | k :: ks => jsOr (getField ev k) (pick ev ks dflt)

/-- JS truthiness, used by `event.stop_reason ? ... : ...`. -/
def truthy : JValue → Bool
  | .jnull => false
  | .jbool b => b
  | .jnum n => n != 0
  | .jstr s => !s.isEmpty
  | .jarr _ => true
  | .jobj _ => true

/-- Viewing a value as an object for property access: non-objects have no
own string-keyed properties relevant here, so they read as empty. -/
def asObj : JValue → List (String × JValue)
  | .jobj fs => fs
  | _ => []

mutual
/-- Model of `JSON.stringify` (escaping of exotic characters inside strings
is elided; no claim depends on it). -/
def jsonStringify : JValue → List Char
  | .jnull => "null".data
  | .jbool true => "true".data
  | .jbool false => "false".data
  | .jnum n => (toString n).data
  | .jstr s => '"' :: (s ++ ['"'])
  | .jarr xs => '[' :: (jsonStringifyList xs ++ [']'])
  | .jobj fs => '\x7b' :: (jsonStringifyFields fs ++ ['\x7d'])

def jsonStringifyList : List JValue → List Char
  | [] => []
  | [x] => jsonStringify x
  | x :: y :: xs => jsonStringify x ++ ',' :: jsonStringifyList (y :: xs)

def jsonStringifyFields : List (String × JValue) → List Char
  | [] => []
  | [(k, v)] => '"' :: (k.data ++ '"' :: ':' :: jsonStringify v)
  | (k, v) :: f :: fs =>
      '"' :: (k.data ++ '"' :: ':' :: jsonStringify v) ++ ',' :: jsonStringifyFields (f :: fs)
end

/-- `typeof value === 'string' ? value : JSON.stringify(value)` from
`truncate` in `src/normalize.ts`. -/
def serialForm : JValue → List Char
  | .jstr s => s
  | v => jsonStringify v

/-- `MAX_OUTPUT_SIZE` in `src/normalize.ts`. -/
def MAX_OUTPUT_SIZE : Nat := 10000

/-- The literal truncation marker appended by `truncate`. -/
def truncMarker (n : Nat) : List Char :=
  ("... [truncated, " ++ toString n ++ " chars total]").data

/-- `truncate` from `src/normalize.ts` lines 5-12. -/
def truncate (value : JValue) : JValue :=
  match value with
  | .jnull => .jnull
  | v =>
      let str := serialForm v
      if str.length > MAX_OUTPUT_SIZE then
        .jstr (str.take MAX_OUTPUT_SIZE ++ truncMarker str.length)
      else v

/-- The `IngestPayload` of `POST /api/ingest`: `source` is kept as an open
string (the JSON body may carry anything), `event` is the raw record, and
`user`/`git` are the optional identity objects (`none` = absent). -/
structure IngestPayload where
  source : String
  sessionId : String
  event : List (String × JValue)
  user : Option (List (String × JValue)) := none
  git : Option (List (String × JValue)) := none

/-- The normalized `AgentFlowEvent`.  Fields that the TS code merely casts
(`as number`, `as string | null`) keep their runtime type `JValue`, because
the casts do not convert values; `category`/`source` are written as string
literals by every branch and stay `String`. -/
structure NEvent where
  id : String
  sessionId : String
  timestamp : JValue
  source : String
  category : String
  type : JValue
  role : JValue
  text : JValue
  toolName : JValue
  toolInput : JValue
  toolOutput : JValue
  error : JValue
  meta : List (String × JValue)
deriving Repr

/-- `normalizeClaudeCode` from `src/normalize.ts` lines 18-112.
`freshId` stands for `crypto.randomUUID()` and `now` for `Date.now()`. -/
def normalizeClaudeCode (freshId : String) (now : Int) (p : IngestPayload) : NEvent :=
  let ev := p.event
  let hookEvent := pick ev ["hook_event_name", "event", "type"] (js "")
  let base : NEvent :=
    { id := freshId
      sessionId := p.sessionId
      timestamp := jsOr (getField ev "timestamp") (.jnum now)
      source := "claude-code"
      category := "system"
      type := hookEvent
      role := .jnull
      text := .jnull
      toolName := .jnull
      toolInput := .jnull
      toolOutput := .jnull
      error := .jnull
      meta := [] }
  if hookEvent = js "SessionStart" ∨ hookEvent = js "session.start" then
    { base with category := "session", type := js "session.start" }
  else if hookEvent = js "Stop" then
    let stopText := pick ev ["result", "response"] .jnull
    { base with
      category := "message", type := js "message.assistant", role := js "assistant"
      text := stopText
      meta :=
        match getField ev "stop_reason" with
        | some r => if truthy r then [("stop_reason", r)] else []
        | none => [] }
  else if hookEvent = js "SessionEnd" ∨ hookEvent = js "session.end" then
    { base with category := "session", type := js "session.end" }
  else if hookEvent = js "UserPromptSubmit" ∨ hookEvent = js "message.user" then
    { base with
      category := "message", type := js "message.user", role := js "user"
      text := pick ev ["user_message", "message", "text", "prompt"] .jnull }
  else if hookEvent = js "PreToolUse" ∨ hookEvent = js "tool.start" then
    { base with
      category := "tool", type := js "tool.start"
      toolName := pick ev ["tool_name", "toolName"] .jnull
      toolInput := pick ev ["tool_input", "toolInput"] .jnull }
  else if hookEvent = js "PostToolUse" ∨ hookEvent = js "tool.end" then
    { base with
      category := "tool", type := js "tool.end"
      toolName := pick ev ["tool_name", "toolName"] .jnull
      toolInput := pick ev ["tool_input", "toolInput"] .jnull
      toolOutput := truncate (pick ev ["tool_response", "tool_output", "toolOutput"] .jnull) }
  else if hookEvent = js "message.assistant" then
    { base with
      category := "message", type := js "message.assistant", role := js "assistant"
      text := pick ev ["message", "text"] .jnull }
  else if hookEvent = js "Error" ∨ hookEvent = js "error" then
    { base with
      category := "error", type := js "error"
      error := pick ev ["error", "message"] .jnull }
  else
    { base with meta := [("rawEvent", .jobj ev)] }

/-- `normalizeCodex` from `src/normalize.ts` lines 114-218. -/
def normalizeCodex (freshId : String) (now : Int) (p : IngestPayload) : NEvent :=
  let ev := p.event
  let eventType := pick ev ["type"] (js "")
  let item := asObj (jsOr (getField ev "item") (.jobj []))
  let itemType := pick item ["type"] (js "")
  let base : NEvent :=
    { id := freshId
      sessionId := p.sessionId
      timestamp := jsOr (getField ev "timestamp") (.jnum now)
      source := "codex"
      category := "system"
      type := eventType
      role := .jnull
      text := .jnull
      toolName := .jnull
      toolInput := .jnull
      toolOutput := .jnull
      error := .jnull
      meta := [] }
  if eventType = js "thread.started" then
    { base with category := "session", type := js "session.start" }
  else if eventType = js "turn.started" then
    { base with category := "system", type := js "turn.start" }
  else if eventType = js "turn.completed" then
    { base with category := "session", type := js "session.end" }
  else if eventType = js "item.started" then
    if itemType = js "command_execution" then
      { base with
        category := "tool", type := js "tool.start"
        toolName := js "command_execution"
        toolInput := jsOr (getField item "command") .jnull }
    else if itemType = js "file_change" then
      { base with
        category := "tool", type := js "tool.start"
        toolName := js "file_change"
        toolInput := .jobj
          ((match getField item "file" with | some v => [("file", v)] | none => []) ++
           (match getField item "patch" with | some v => [("patch", v)] | none => [])) }
    else if itemType = js "agent_message" then
      { base with
        category := "message", type := js "message.assistant", role := js "assistant"
        text := jsOr (getField item "content") .jnull }
    else
      { base with meta := [("item", .jobj item)] }
  else if eventType = js "item.completed" then
    if itemType = js "command_execution" then
      { base with
        category := "tool", type := js "tool.end"
        toolName := js "command_execution"
        toolOutput := truncate (jsOr (getField item "output") .jnull) }
    else if itemType = js "file_change" then
      { base with
        category := "tool", type := js "tool.end"
        toolName := js "file_change"
        toolOutput := truncate (jsOr (getField item "patch") .jnull) }
    else if itemType = js "agent_message" then
      { base with
        category := "message", type := js "message.assistant", role := js "assistant"
        text := jsOr (getField item "content") .jnull }
    else
      { base with meta := [("item", .jobj item)] }
  else if eventType = js "error" then
    { base with
      category := "error", type := js "error"
      error := pick ev ["message", "error"] .jnull }
  else
    { base with meta := [("rawEvent", .jobj ev)] }

/-- `normalize` from `src/normalize.ts` lines 220-225: codex is dispatched
explicitly, every other source falls through to the claude-code dialect. -/
def normalize (freshId : String) (now : Int) (p : IngestPayload) : NEvent :=
  if p.source = "codex" then normalizeCodex freshId now p
  else normalizeClaudeCode freshId now p

/-- Modelled from the spec: the opencode branch of the normalizer is not in
the source tree (only `tests/opencode-streaming.test.ts` exercises it
end-to-end), so this follows spec section 4.2.  Hook-style events
(`session.created`, `session.idle`, `message.updated`,
`message.part.updated`) and jsonl-style events (`step_start`,
`step_finish`, `text`, `tool_use`) are recognised; a part with
`part.type='text'` becomes `message.user`/`message.assistant` depending on
`_role`/`role`, a part with `part.type='tool'` becomes `tool.start` when
`state.status='running'` (or `'pending'` in the jsonl dialect) and
`tool.end` when `state.status='completed'`; unrecognised `message.updated`
payloads without a text part fall through as `system` events. -/
def normalizeOpenCode (freshId : String) (now : Int) (p : IngestPayload) : NEvent :=
  let ev := p.event
  let tyV := pick ev ["type"] (js "")
  let props := asObj (jsOr (getField ev "properties") (.jobj []))
  let base : NEvent :=
    { id := freshId
      sessionId := p.sessionId
      timestamp := jsOr (getField ev "timestamp") (.jnum now)
      source := "opencode"
      category := "system"
      type := tyV
      role := .jnull
      text := .jnull
      toolName := .jnull
      toolInput := .jnull
      toolOutput := .jnull
      error := .jnull
      meta := [] }
  let normPart := fun (part : List (String × JValue)) =>
    let partType := pick part ["type"] (js "")
    if partType = js "text" then
      let roleV := pick props ["_role", "role"] (js "assistant")
      if roleV = js "user" then
        some { base with
          category := "message", type := js "message.user", role := js "user"
          text := pick part ["text"] .jnull }
      else
        some { base with
          category := "message", type := js "message.assistant", role := js "assistant"
          text := pick part ["text"] .jnull }
    else if partType = js "tool" then
      let state := asObj (jsOr (getField part "state") (.jobj []))
      let status := pick state ["status"] (js "")
      if status = js "running" ∨ status = js "pending" then
        some { base with
          category := "tool", type := js "tool.start"
          toolName := pick part ["tool", "toolName"] .jnull
          toolInput := pick state ["input"] .jnull }
      else if status = js "completed" then
        some { base with
          category := "tool", type := js "tool.end"
          toolName := pick part ["tool", "toolName"] .jnull
          toolInput := pick state ["input"] .jnull
          toolOutput := truncate (pick state ["output"] .jnull) }
      else none
    else none
  if tyV = js "session.created" then
    { base with category := "session", type := js "session.start" }
  else if tyV = js "session.idle" then
    { base with category := "session", type := js "session.end" }
  else if tyV = js "message.updated" ∨ tyV = js "message.part.updated" then
    match normPart (asObj (jsOr (getField props "part") (.jobj []))) with
    | some e => e
    | none => { base with meta := [("rawEvent", .jobj ev)] }
  else if tyV = js "step_start" then
    { base with category := "system", type := js "step.start" }
  else if tyV = js "step_finish" then
    { base with category := "system", type := js "step.finish" }
  else if tyV = js "text" then
    { base with
      category := "message", type := js "message.assistant", role := js "assistant"
      text := pick (asObj (jsOr (getField ev "part") (.jobj []))) ["text"] .jnull }
  else if tyV = js "tool_use" then
    match normPart (asObj (jsOr (getField ev "part") (.jobj []))) with
    | some e => e
    | none => { base with meta := [("rawEvent", .jobj ev)] }
  else
    { base with meta := [("rawEvent", .jobj ev)] }

/-- Modelled from the spec: the dispatcher of spec section 4.2 including
the opencode branch that is missing from the source tree; codex and
claude-code are dispatched to the source-faithful functions above. -/
def normalizeSpec (freshId : String) (now : Int) (p : IngestPayload) : NEvent :=
  if p.source = "codex" then normalizeCodex freshId now p
  else if p.source = "opencode" then normalizeOpenCode freshId now p
  else normalizeClaudeCode freshId now p

/-! ## The store (`src/db/index.ts`, current generation) -/

/-- An event as typed at the db layer (`AgentDogEvent`): `timestamp` is the
integer column of the `events` table. -/
structure AgentDogEvent where
  id : String
  sessionId : String
  timestamp : Int
  source : String
  category : String
  type : String
  role : JValue := .jnull
  text : JValue := .jnull
  toolName : JValue := .jnull
  toolInput : JValue := .jnull
  toolOutput : JValue := .jnull
  error : JValue := .jnull
  meta : List (String × JValue) := []
deriving Repr

/-- A row of the `sessions` table. -/
structure SessionRow where
  id : String
  source : String
  startTime : Int
  lastEventTime : Int
  status : String
  metadata : List (String × JValue)
deriving Repr

/-- The relational store: the `sessions` table and the `events` table in
insertion order. -/
structure Store where
  sessions : List SessionRow
  events : List AgentDogEvent
deriving Repr

def emptyStore : Store := ⟨[], []⟩

/-- `UPDATE sessions SET ... WHERE id = ?`: apply `f` to every row whose id
matches. -/
def updateWhere (id : String) (f : SessionRow → SessionRow) (rows : List SessionRow) :
    List SessionRow :=
  rows.map fun r => if r.id = id then f r else r

/-- `addEvent` from `src/db/index.ts` lines 234-291: upsert the session row
(create as `active`, else refresh `lastEventTime`), then apply the status
side-rules in source order (`session.end` branch first, then
`category=error`, then reactivation of a previously `completed` session),
then insert the event row. -/
def addEvent (e : AgentDogEvent) (st : Store) : Store :=
  let now := e.timestamp
  let existing := st.sessions.find? fun r => r.id = e.sessionId
  let afterUpsert :=
    match existing with
    | none =>
        st.sessions ++
          [{ id := e.sessionId, source := e.source, startTime := now,
             lastEventTime := now, status := "active", metadata := [] }]
    | some _ =>
        updateWhere e.sessionId (fun r => { r with lastEventTime := now }) st.sessions
  let afterStatus :=
    if e.type = "session.end" then
      updateWhere e.sessionId (fun r => { r with status := "completed", lastEventTime := now })
        afterUpsert
    else if e.category = "error" then
      updateWhere e.sessionId (fun r => { r with status := "error", lastEventTime := now })
        afterUpsert
    else
      match existing with
      | some ex =>
          if ex.status = "completed" then
            updateWhere e.sessionId (fun r => { r with status := "active", lastEventTime := now })
              afterUpsert
          else afterUpsert
      | none => afterUpsert
  { sessions := afterStatus, events := st.events ++ [e] }

/-- The stored (not derived) status of a session row. -/
def storedStatus (st : Store) (sid : String) : Option String :=
  (st.sessions.find? fun r => r.id = sid).map (·.status)

/-- The stored `lastEventTime` of a session row. -/
def storedLastEventTime (st : Store) (sid : String) : Option Int :=
  (st.sessions.find? fun r => r.id = sid).map (·.lastEventTime)

/-- `STALE_TIMEOUT` from `src/db/index.ts` line 293 (2 minutes in ms). -/
def STALE_TIMEOUT : Int := 2 * 60 * 1000

/-- `deriveStatus` from `src/db/index.ts` lines 295-301. -/
def deriveStatus (now : Int) (status : String) (lastEventTime : Int) : String :=
  if status = "error" then "error"
  else if status = "completed" then "completed"
  else if now - lastEventTime > STALE_TIMEOUT then "completed"
  else "active"

/-- The session value returned to readers (`Session` with derived fields). -/
structure SessionView where
  id : String
  source : String
  startTime : Int
  lastEventTime : Int
  status : String
  lastEventType : Option String
  eventCount : Nat
  metadata : List (String × JValue)
deriving Repr

/-- The reverse-timestamp-ordered limit-1 lookup used for `lastEventType`
(on equal timestamps the later insertion wins, matching the reverse scan of
the `(session_id, timestamp)` index). -/
def lastEventTypeOf (st : Store) (sid : String) : Option String :=
  ((st.events.filter fun e => e.sessionId = sid).foldl
    (fun acc e =>
      match acc with
      | none => some e
      | some a => if a.timestamp ≤ e.timestamp then some e else some a)
    none).map (·.type)

/-- The derived fields of `getSession`/`listSessions` for one row. -/
def viewOfRow (now : Int) (st : Store) (row : SessionRow) : SessionView :=
  { id := row.id
    source := row.source
    startTime := row.startTime
    lastEventTime := row.lastEventTime
    status := deriveStatus now row.status row.lastEventTime
    lastEventType := lastEventTypeOf st row.id
    eventCount := (st.events.filter fun e => e.sessionId = row.id).length
    metadata := row.metadata }

/-- `getSession` from `src/db/index.ts` lines 303-331: a pure read; the
returned view carries the derived effective status, and no session row is
written. -/
def getSession (now : Int) (st : Store) (id : String) : Option SessionView :=
  (st.sessions.find? fun r => r.id = id).map (viewOfRow now st)

/-- `getSessionEvents` from `src/db/index.ts` lines 333-354: all events of
the session ordered by `(timestamp, insertion order)`; the insertion order
is already timestamp-compatible for the index scan, modelled as a stable
sort on the insertion-ordered list. -/
def getSessionEvents (st : Store) (sid : String) : List AgentDogEvent :=
  ((st.events.filter fun e => e.sessionId = sid).mergeSort
    fun a b => a.timestamp ≤ b.timestamp)

/-- `listSessions` from `src/db/index.ts` lines 356-385: all sessions
ordered by `lastEventTime` descending, with derived fields. -/
def listSessions (now : Int) (st : Store) : List SessionView :=
  (st.sessions.mergeSort fun a b => b.lastEventTime ≤ a.lastEventTime).map (viewOfRow now st)

/-- The JS object spread `{ ...existing, ...meta }`: keys of `old` keep
their position (patched values win), new keys of `patch` are appended. -/
def mergeObj (old patch : List (String × JValue)) : List (String × JValue) :=
  (old.map fun kv => (kv.1, (patch.lookup kv.1).getD kv.2)) ++
    patch.filter fun kv => (old.lookup kv.1).isNone

/-- `updateSessionMeta` from `src/db/index.ts` lines 387-396: shallow-merge
`meta` into the metadata of the session row, if that row exists. -/
def updateSessionMeta (id : String) (meta : List (String × JValue)) (st : Store) : Store :=
  match st.sessions.find? fun r => r.id = id with
  | none => st
  | some _ =>
      { st with
        sessions :=
          updateWhere id (fun r => { r with metadata := mergeObj r.metadata meta }) st.sessions }

/-- The store side of the ingest handler, `src/routes.ts` lines 62-68:
after `normalize`, the event is appended, and then the payload `user`
object — only when present and non-empty (`Object.keys(...).length > 0`) —
is merged into the session metadata under the key `user`.  The handler
reads no `git` field: the `git` argument is accepted (a JSON body may carry
it) and ignored, exactly as the source does. -/
def ingestAfterNormalize (e : AgentDogEvent) (user git : Option (List (String × JValue)))
    (st : Store) : Store :=
  let st1 := addEvent e st
  match user with
  | some u => if u.isEmpty then st1 else updateSessionMeta e.sessionId [("user", .jobj u)] st1
  | none => st1

/-- Metadata lookup on the stored session row. -/
def metaLookup (st : Store) (sid : String) (key : String) : Option JValue :=
  match st.sessions.find? fun r => r.id = sid with
  | none => none
  | some r => r.metadata.lookup key

/-! ## The realtime gateway (server factory + ingest broadcast)

The `subscribe` handler of the server factory runs synchronously on the
single JS event loop — `socket.join`, `getSessionEvents`, `emit` with no
suspension point between them — and the ingest handler appends the event
and broadcasts it to the room in one synchronous section.  Each handler is
therefore one atomic step of the trace model below. -/

/-- An event as it travels through the gateway: its session and an opaque
identity. -/
structure GEvent where
  sessionId : String
  eid : Nat
deriving Repr, DecidableEq

/-- One atomic server step: a client command (`subscribe`/`unsubscribe`
from the connection handler) or an ingest that appends and broadcasts. -/
inductive GOp where
  | subscribe (c : Nat) (sid : String)
  | unsubscribe (c : Nat) (sid : String)
  | ingest (e : GEvent)
deriving Repr, DecidableEq

/-- A message delivered to a client socket: the one-shot `session:events`
snapshot or a live `event`. -/
inductive GMsg where
  | snapshot (sid : String) (events : List GEvent)
  | live (e : GEvent)
deriving Repr, DecidableEq

/-- Gateway state: the event log of the store, the room membership
relation, and each client socket inbox in delivery order. -/
structure GState where
  events : List GEvent
  rooms : List (Nat × String)
  inbox : Nat → List GMsg

def gInit : GState := ⟨[], [], fun _ => []⟩

/-- The events of one session in store order (`getSessionEvents`). -/
def gSessionEvents (events : List GEvent) (sid : String) : List GEvent :=
  events.filter fun e => e.sessionId = sid

/-- One step of the gateway.  `subscribe`: join the room, then emit the
historical snapshot to that socket (server factory `subscribe` handler).
`ingest`: append to the store, then emit the event to every socket in the
room `session:<id>` (routes.ts broadcast). -/
def gStep (st : GState) : GOp → GState
  | .subscribe c sid =>
      { events := st.events
        rooms := (c, sid) :: st.rooms
        inbox := fun c' =>
          if c' = c then st.inbox c' ++ [.snapshot sid (gSessionEvents st.events sid)]
          else st.inbox c' }
  | .unsubscribe c sid =>
      { events := st.events
        rooms := st.rooms.filter fun m => ¬(m = (c, sid))
        inbox := st.inbox }
  | .ingest e =>
      { events := st.events ++ [e]
        rooms := st.rooms
        inbox := fun c' =>
          if (c', e.sessionId) ∈ st.rooms then st.inbox c' ++ [.live e] else st.inbox c' }

/-- Run the gateway over a trace of operations. -/
def gRun (st : GState) (ops : List GOp) : GState :=
  ops.foldl gStep st

/-- The operations of a trace that belong to client `c`. -/
def isClientOp (c : Nat) : GOp → Prop
  | .subscribe c' _ => c' = c
  | .unsubscribe c' _ => c' = c
  | .ingest _ => False

instance (c : Nat) (op : GOp) : Decidable (isClientOp c op) := by
  cases op <;> simp [isClientOp] <;> infer_instance

/-- The events ingested for session `sid` by a trace, in order. -/
def ingestedFor (sid : String) (ops : List GOp) : List GEvent :=
  ops.filterMap fun op =>
    match op with
    | .ingest e => if e.sessionId = sid then some e else none
    | _ => none

/-! ## Auth admission (spec-modelled) -/

/-- An HTTP request or realtime handshake as the admission layer sees it. -/
structure HttpRequest where
  method : String
  path : String
  apiKeyHeader : Option String := none
  cookie : Option String := none
deriving Repr, DecidableEq

/-- The possible outcomes of admission. -/
inductive AuthOutcome where
  | publicOk
  | delegated
  | granted (userId : String)
  | unauthorized
deriving Repr, DecidableEq

/-- `String.startsWith`, written on the character list so that concrete
instances evaluate. -/
def pathStartsWith (p pre : String) : Bool := pre.data.isPrefixOf p.data

def isApiPath (p : String) : Bool := pathStartsWith p "/api/"

def isAuthProviderPath (p : String) : Bool := pathStartsWith p "/api/auth/"

/-- Modelled from the spec: the admission middleware of the server factory
(enabled by `authEnabled`) is not in the source tree — only the
`authenticateRequest` credential helper and `tests/auth.test.ts` are.  Per
spec sections 4.5, 4.7 and 6: `/health` is always public; the
identity-provider endpoints under `/api/auth/` are delegated to the
external provider (the repository auth tests sign up and sign in on them
without credentials); login/invite pages and static assets (non-`/api/`
paths) bypass admission; every other request is admitted only when the
credential verifier (x-api-key, then session cookie) yields a principal. -/
def authAdmission (verify : HttpRequest → Option String) (req : HttpRequest) : AuthOutcome :=
  if req.path = "/health" then .publicOk
  else if isAuthProviderPath req.path then .delegated
  else if ¬ isApiPath req.path then .publicOk
  else
    match verify req with
    | some uid => .granted uid
    | none => .unauthorized

/-- The exact 401 body of the admission middleware. -/
def unauthorizedBody : String := "\x7b\"error\":\"Unauthorized\"\x7d"

/-- Modelled from the spec: the middleware short-circuit.  `some` is a
response produced before any route handler runs (so the store is returned
untouched); `none` lets the request proceed. -/
def gate (verify : HttpRequest → Option String) (req : HttpRequest) (st : Store) :
    Option ((Nat × String) × Store) :=
  match authAdmission verify req with
  | .unauthorized => some ((401, unauthorizedBody), st)
  | _ => none

/-- Modelled from the spec: the realtime handshake middleware (spec section
4.6 step 1) — without a verified credential the connection is rejected with
the reason `Authentication required`. -/
def socketHandshake (verify : HttpRequest → Option String) (req : HttpRequest) :
    Except String Unit :=
  match verify req with
  | some _ => .ok ()
  | none => .error "Authentication required"

/-- The fresh session row created by `addEvent` for an unknown session. -/
def freshRow (e : AgentDogEvent) : SessionRow :=
  { id := e.sessionId, source := e.source, startTime := e.timestamp,
    lastEventTime := e.timestamp, status := "active", metadata := [] }

/-- The session row of `e.sessionId` as it stands after `addEvent e st`
(characterization used by the store lemmas below). -/
def sessionRowAfter (e : AgentDogEvent) (st : Store) : SessionRow :=
  let base :=
    match st.sessions.find? fun r => r.id = e.sessionId with
    | none => freshRow e
    | some r => { r with lastEventTime := e.timestamp }
  if e.type = "session.end" then { base with status := "completed" }
  else if e.category = "error" then { base with status := "error" }
  else
    match st.sessions.find? fun r => r.id = e.sessionId with
    | some ex => if ex.status = "completed" then { base with status := "active" } else base
    | none => base

/-! ## Helper lemmas -/

/-- Branch-free characterization of `truncate` (the `null`/`undefined`
early return is absorbed: the serial form of `null` is 4 characters). -/
theorem truncate_eq (v : JValue) :
    truncate v =
      if (serialForm v).length > MAX_OUTPUT_SIZE then
        .jstr ((serialForm v).take MAX_OUTPUT_SIZE ++ truncMarker (serialForm v).length)
      else v := by
  cases v with
  | jnull => simp [truncate, serialForm, jsonStringify, MAX_OUTPUT_SIZE]
  | jbool b => rfl
  | jnum n => rfl
  | jstr s => rfl
  | jarr xs => rfl
  | jobj fs => rfl

/-- No branch of `normalizeClaudeCode` overrides the base timestamp. -/
theorem normalizeClaudeCode_timestamp (freshId : String) (now : Int) (p : IngestPayload) :
    (normalizeClaudeCode freshId now p).timestamp =
      jsOr (getField p.event "timestamp") (.jnum now) := by
  simp only [normalizeClaudeCode]
  repeat' split
  all_goals rfl

/-- No branch of `normalizeCodex` overrides the base timestamp. -/
theorem normalizeCodex_timestamp (freshId : String) (now : Int) (p : IngestPayload) :
    (normalizeCodex freshId now p).timestamp =
      jsOr (getField p.event "timestamp") (.jnum now) := by
  simp only [normalizeCodex]
  repeat' split
  all_goals rfl

/-- No branch of either source-faithful normalizer overrides the base
timestamp: the output timestamp is always `event.timestamp ?? now`. -/
theorem normalize_timestamp (freshId : String) (now : Int) (p : IngestPayload) :
    (normalize freshId now p).timestamp = jsOr (getField p.event "timestamp") (.jnum now) := by
  unfold normalize
  split
  · exact normalizeCodex_timestamp freshId now p
  · exact normalizeClaudeCode_timestamp freshId now p

/-- `find?` through `UPDATE ... WHERE id`: when the update preserves ids,
the first matching row is the updated first matching row. -/
theorem find?_updateWhere (id : String) (f : SessionRow → SessionRow)
    (hf : ∀ r, (f r).id = r.id) (rows : List SessionRow) :
    (updateWhere id f rows).find? (fun r => r.id = id) =
      (rows.find? fun r => r.id = id).map f := by
  induction rows with
  | nil => rfl
  | cons r rows ih =>
      simp only [updateWhere, List.map_cons] at ih ⊢
      by_cases h : r.id = id
      · rw [if_pos h, List.find?_cons_of_pos _ (by simp [hf, h]),
          List.find?_cons_of_pos _ (by simp [h])]
        rfl
      · rw [if_neg h, List.find?_cons_of_neg _ (by simp [h]),
          List.find?_cons_of_neg _ (by simp [h]), ih]

/-- The session row visible after `addEvent` is `sessionRowAfter`. -/
theorem addEvent_find (e : AgentDogEvent) (st : Store) :
    (addEvent e st).sessions.find? (fun r => r.id = e.sessionId) =
      some (sessionRowAfter e st) := by
  have hfresh : (List.find? (fun r => decide (r.id = e.sessionId))
      ([⟨e.sessionId, e.source, e.timestamp, e.timestamp, "active", []⟩] : List SessionRow)) =
      some ⟨e.sessionId, e.source, e.timestamp, e.timestamp, "active", []⟩ :=
    List.find?_cons_of_pos _ (by simp)
  have hC := find?_updateWhere e.sessionId
    (fun r => { r with status := "completed", lastEventTime := e.timestamp }) (fun r => rfl)
  have hE := find?_updateWhere e.sessionId
    (fun r => { r with status := "error", lastEventTime := e.timestamp }) (fun r => rfl)
  have hA := find?_updateWhere e.sessionId
    (fun r => { r with status := "active", lastEventTime := e.timestamp }) (fun r => rfl)
  have hL := find?_updateWhere e.sessionId
    (fun r => { r with lastEventTime := e.timestamp }) (fun r => rfl)
  unfold addEvent sessionRowAfter
  cases hf : st.sessions.find? fun r => r.id = e.sessionId with
  | none =>
      simp only [hf]
      by_cases h1 : e.type = "session.end"
      · rw [if_pos h1, if_pos h1, hC, List.find?_append, hf, Option.none_or, hfresh]
        rfl
      · by_cases h2 : e.category = "error"
        · rw [if_neg h1, if_neg h1, if_pos h2, if_pos h2,
            hE, List.find?_append, hf, Option.none_or, hfresh]
          rfl
        · rw [if_neg h1, if_neg h1, if_neg h2, if_neg h2,
            List.find?_append, hf, Option.none_or, hfresh]
          rfl
  | some r =>
      simp only [hf]
      by_cases h1 : e.type = "session.end"
      · rw [if_pos h1, if_pos h1, hC, hL, hf]
        rfl
      · by_cases h2 : e.category = "error"
        · rw [if_neg h1, if_neg h1, if_pos h2, if_pos h2, hE, hL, hf]
          rfl
        · by_cases h3 : r.status = "completed"
          · rw [if_neg h1, if_neg h1, if_neg h2, if_neg h2, if_pos h3, if_pos h3, hA, hL, hf]
            rfl
          · rw [if_neg h1, if_neg h1, if_neg h2, if_neg h2, if_neg h3, if_neg h3, hL, hf]
            rfl

/-- Every branch of `addEvent` writes the appended event timestamp into
`lastEventTime`. -/
theorem sessionRowAfter_lastEventTime (e : AgentDogEvent) (st : Store) :
    (sessionRowAfter e st).lastEventTime = e.timestamp := by
  unfold sessionRowAfter
  repeat' split
  all_goals rfl

/-- Lookup in the patched-in-place half of a JS object spread. -/
theorem lookup_mapPatch (old patch : List (String × JValue)) (k : String) :
    ((old.map fun kv => (kv.1, (patch.lookup kv.1).getD kv.2)).lookup k) =
      (old.lookup k).map fun v => (patch.lookup k).getD v := by
  induction old with
  | nil => rfl
  | cons hd tl ih =>
      obtain ⟨k1, v1⟩ := hd
      simp only [List.map_cons, List.lookup_cons]
      cases hbeq : k == k1 with
      | true =>
          have hk : k = k1 := by simpa using hbeq
          subst hk
          rfl
      | false => simpa using ih

/-- Lookup in the appended half of a JS object spread, for a key absent
from the original object. -/
theorem lookup_filterAbsent (old patch : List (String × JValue)) (k : String)
    (hk : old.lookup k = none) :
    ((patch.filter fun kv => (old.lookup kv.1).isNone).lookup k) = patch.lookup k := by
  induction patch with
  | nil => rfl
  | cons hd tl ih =>
      obtain ⟨k2, v2⟩ := hd
      cases hkeep : (old.lookup k2).isNone with
      | true =>
          simp only [List.filter_cons, hkeep, if_pos, List.lookup_cons]
          cases hbeq : k == k2 <;> simpa using ih
      | false =>
          have hdrop : (List.filter (fun kv => (old.lookup kv.1).isNone) ((k2, v2) :: tl)) =
              List.filter (fun kv => (old.lookup kv.1).isNone) tl := by
            simp [List.filter_cons, hkeep]
          rw [hdrop, List.lookup_cons]
          cases hbeq : k == k2 with
          | true =>
              have hk2 : k = k2 := by simpa using hbeq
              subst hk2
              rw [hk] at hkeep
              simp at hkeep
          | false => simpa using ih

/-- Lookup through the JS spread `{ ...old, ...patch }`: patch keys win,
other keys read from `old`. -/
theorem mergeObj_lookup (old patch : List (String × JValue)) (k : String) :
    (mergeObj old patch).lookup k =
      match old.lookup k with
      | some v => some ((patch.lookup k).getD v)
      | none => patch.lookup k := by
  rw [mergeObj, List.lookup_append, lookup_mapPatch]
  cases h : old.lookup k with
  | some v => rfl
  | none => simp [lookup_filterAbsent old patch k h]

/-- `updateSessionMeta` merges into the metadata of the found row. -/
theorem updateSessionMeta_metaLookup (id : String) (meta : List (String × JValue))
    (st : Store) (row : SessionRow)
    (hf : st.sessions.find? (fun r => r.id = id) = some row) (k : String) :
    metaLookup (updateSessionMeta id meta st) id k = (mergeObj row.metadata meta).lookup k := by
  have hU := find?_updateWhere id (fun r => { r with metadata := mergeObj r.metadata meta })
    (fun r => rfl) st.sessions
  rw [hf, Option.map_some'] at hU
  rw [updateSessionMeta, hf]
  simp only [metaLookup, hU]

/-! ## Claims -/

/-- C3 counterexample: an event carrying both `type = session.end` and
`category = error`.  The code checks the `session.end` rule first, so the
stored status becomes `completed`, while the claim (its `category=error`
conjunct) demands `error`. -/
theorem C3_counterexample :
    storedStatus
        (addEvent
          { id := "e2", sessionId := "s", timestamp := 2, source := "claude-code",
            category := "error", type := "session.end" }
          (addEvent
            { id := "e1", sessionId := "s", timestamp := 1, source := "claude-code",
              category := "session", type := "session.start" }
            emptyStore)) "s" =
      some "completed" ∧ ("completed" : String) ≠ "error" :=
  ⟨rfl, by decide⟩

/-- C3 amended: the status side-rules apply in source order — an event of
`type = session.end` always stores `completed`; otherwise an event of
`category = error` stores `error`; otherwise any event appended to a
session whose stored status is `completed` returns it to `active`. -/
theorem C3_status_transitions :
    (∀ (e : AgentDogEvent) (st : Store), e.type = "session.end" →
      storedStatus (addEvent e st) e.sessionId = some "completed") ∧
    (∀ (e : AgentDogEvent) (st : Store), e.type ≠ "session.end" → e.category = "error" →
      storedStatus (addEvent e st) e.sessionId = some "error") ∧
    (∀ (e : AgentDogEvent) (st : Store), e.type ≠ "session.end" → e.category ≠ "error" →
      storedStatus st e.sessionId = some "completed" →
      storedStatus (addEvent e st) e.sessionId = some "active") := by
  refine ⟨fun e st h1 => ?_, fun e st h1 h2 => ?_, fun e st h1 h2 h3 => ?_⟩
  · rw [storedStatus, addEvent_find, Option.map_some']
    unfold sessionRowAfter
    rw [if_pos h1]
  · rw [storedStatus, addEvent_find, Option.map_some']
    unfold sessionRowAfter
    rw [if_neg h1, if_pos h2]
  · rw [storedStatus] at h3
    rcases Option.map_eq_some'.mp h3 with ⟨r, hf, hr⟩
    rw [storedStatus, addEvent_find, Option.map_some']
    unfold sessionRowAfter
    rw [if_neg h1, if_neg h2]
    simp only [hf, hr, if_pos]

/-- Witness for C3 amended at concrete inputs: a `session.end` event, an
error event, and a reactivating message event on a completed session. -/
theorem C3_witness :
    storedStatus
        (addEvent
          { id := "a1", sessionId := "s", timestamp := 1, source := "claude-code",
            category := "session", type := "session.end" }
          emptyStore) "s" = some "completed" ∧
    storedStatus
        (addEvent
          { id := "a2", sessionId := "s", timestamp := 2, source := "claude-code",
            category := "error", type := "error" }
          emptyStore) "s" = some "error" ∧
    storedStatus
        (addEvent
          { id := "a3", sessionId := "s", timestamp := 3, source := "claude-code",
            category := "message", type := "message.user" }
          ⟨[⟨"s", "claude-code", 0, 0, "completed", []⟩], []⟩) "s" = some "active" :=
  ⟨C3_status_transitions.1 _ _ rfl,
    C3_status_transitions.2.1 _ _ (by decide) rfl,
    C3_status_transitions.2.2 _ _ (by decide) (by decide) rfl⟩

/-- C5 counterexample: `addEvent` overwrites `lastEventTime` with the
appended event timestamp, so an event carrying a smaller timestamp (here
500 after 1000) moves `lastEventTime` backwards. -/
theorem C5_counterexample :
    storedLastEventTime
        (addEvent
          { id := "e1", sessionId := "s", timestamp := 1000, source := "claude-code",
            category := "session", type := "session.start" }
          emptyStore) "s" = some 1000 ∧
    storedLastEventTime
        (addEvent
          { id := "e2", sessionId := "s", timestamp := 500, source := "claude-code",
            category := "message", type := "message.user" }
          (addEvent
            { id := "e1", sessionId := "s", timestamp := 1000, source := "claude-code",
              category := "session", type := "session.start" }
            emptyStore)) "s" = some 500 ∧
    (500 : Int) < 1000 :=
  ⟨rfl, rfl, by norm_num⟩

/-- C5 amended: after every append the stored `lastEventTime` equals the
appended event timestamp; consequently it is non-decreasing exactly when
the appended events carry non-decreasing timestamps. -/
theorem C5_lastEventTime_tracks_append :
    (∀ (e : AgentDogEvent) (st : Store),
      storedLastEventTime (addEvent e st) e.sessionId = some e.timestamp) ∧
    (∀ (e : AgentDogEvent) (st : Store) (t t' : Int),
      storedLastEventTime st e.sessionId = some t → t ≤ e.timestamp →
      storedLastEventTime (addEvent e st) e.sessionId = some t' → t ≤ t') := by
  have h1 : ∀ (e : AgentDogEvent) (st : Store),
      storedLastEventTime (addEvent e st) e.sessionId = some e.timestamp := by
    intro e st
    rw [storedLastEventTime, addEvent_find, Option.map_some', sessionRowAfter_lastEventTime]
  refine ⟨h1, fun e st t t' _ hle h' => ?_⟩
  rw [h1 e st] at h'
  cases h'
  exact hle

/-- Unfolding one gateway step. -/
theorem gRun_cons (st : GState) (op : GOp) (ops : List GOp) :
    gRun st (op :: ops) = gRun (gStep st op) ops := rfl

/-- C1: with source `opencode` the dispatcher normalizes the opencode
dialect as specified — a `text` part becomes `message.user` or
`message.assistant` depending on `_role`/`role`, a `tool` part becomes
`tool.start` on `state.status='running'` and `tool.end` on
`state.status='completed'`, and a `message.updated` payload without a part
falls through as a `system` event. -/
theorem C1_opencode_dialect :
    (∀ (freshId : String) (now : Int) (sid : String) (ev props part : List (String × JValue)),
      (pick ev ["type"] (js "") = js "message.updated" ∨
        pick ev ["type"] (js "") = js "message.part.updated") →
      getField ev "properties" = some (.jobj props) →
      getField props "part" = some (.jobj part) →
      pick part ["type"] (js "") = js "text" →
      pick props ["_role", "role"] (js "assistant") = js "user" →
      (normalizeSpec freshId now ⟨"opencode", sid, ev, none, none⟩).category = "message" ∧
      (normalizeSpec freshId now ⟨"opencode", sid, ev, none, none⟩).type = js "message.user" ∧
      (normalizeSpec freshId now ⟨"opencode", sid, ev, none, none⟩).role = js "user" ∧
      (normalizeSpec freshId now ⟨"opencode", sid, ev, none, none⟩).text =
        pick part ["text"] .jnull) ∧
    (∀ (freshId : String) (now : Int) (sid : String) (ev props part : List (String × JValue)),
      (pick ev ["type"] (js "") = js "message.updated" ∨
        pick ev ["type"] (js "") = js "message.part.updated") →
      getField ev "properties" = some (.jobj props) →
      getField props "part" = some (.jobj part) →
      pick part ["type"] (js "") = js "text" →
      pick props ["_role", "role"] (js "assistant") ≠ js "user" →
      (normalizeSpec freshId now ⟨"opencode", sid, ev, none, none⟩).category = "message" ∧
      (normalizeSpec freshId now ⟨"opencode", sid, ev, none, none⟩).type =
        js "message.assistant" ∧
      (normalizeSpec freshId now ⟨"opencode", sid, ev, none, none⟩).role = js "assistant") ∧
    (∀ (freshId : String) (now : Int) (sid : String)
        (ev props part state : List (String × JValue)),
      (pick ev ["type"] (js "") = js "message.updated" ∨
        pick ev ["type"] (js "") = js "message.part.updated") →
      getField ev "properties" = some (.jobj props) →
      getField props "part" = some (.jobj part) →
      pick part ["type"] (js "") = js "tool" →
      getField part "state" = some (.jobj state) →
      pick state ["status"] (js "") = js "running" →
      (normalizeSpec freshId now ⟨"opencode", sid, ev, none, none⟩).category = "tool" ∧
      (normalizeSpec freshId now ⟨"opencode", sid, ev, none, none⟩).type = js "tool.start" ∧
      (normalizeSpec freshId now ⟨"opencode", sid, ev, none, none⟩).toolName =
        pick part ["tool", "toolName"] .jnull) ∧
    (∀ (freshId : String) (now : Int) (sid : String)
        (ev props part state : List (String × JValue)),
      (pick ev ["type"] (js "") = js "message.updated" ∨
        pick ev ["type"] (js "") = js "message.part.updated") →
      getField ev "properties" = some (.jobj props) →
      getField props "part" = some (.jobj part) →
      pick part ["type"] (js "") = js "tool" →
      getField part "state" = some (.jobj state) →
      pick state ["status"] (js "") = js "completed" →
      (normalizeSpec freshId now ⟨"opencode", sid, ev, none, none⟩).category = "tool" ∧
      (normalizeSpec freshId now ⟨"opencode", sid, ev, none, none⟩).type = js "tool.end" ∧
      (normalizeSpec freshId now ⟨"opencode", sid, ev, none, none⟩).toolOutput =
        truncate (pick state ["output"] .jnull)) ∧
    (∀ (freshId : String) (now : Int) (sid : String) (ev props : List (String × JValue)),
      pick ev ["type"] (js "") = js "message.updated" →
      getField ev "properties" = some (.jobj props) →
      getField props "part" = none →
      (normalizeSpec freshId now ⟨"opencode", sid, ev, none, none⟩).category = "system" ∧
      (normalizeSpec freshId now ⟨"opencode", sid, ev, none, none⟩).type =
        js "message.updated") := by
  refine ⟨fun freshId now sid ev props part hty hprops hpart hpt hrole => ?_,
    fun freshId now sid ev props part hty hprops hpart hpt hrole => ?_,
    fun freshId now sid ev props part state hty hprops hpart hpt hstate hstatus => ?_,
    fun freshId now sid ev props part state hty hprops hpart hpt hstate hstatus => ?_,
    fun freshId now sid ev props hty hprops hpart => ?_⟩ <;>
  · simp only [normalizeSpec]
    rw [if_pos trivial]
    first
    | (rcases hty with hty | hty <;>
        · simp only [normalizeOpenCode, hty, hprops, hpart, jsOr, asObj]
          first
          | simp +decide [hpt, hrole]
          | simp +decide [hpt, hstate, hstatus, jsOr, asObj])
    | · simp only [normalizeOpenCode, hty, hprops, hpart, jsOr, asObj]
        simp +decide

/-- Witness for C1 at concrete payloads shaped like the plugin events of
the opencode streaming test: a user text part, an assistant text part, a
running tool part, a completed tool part, and a metadata-only
`message.updated`. -/
theorem C1_witness :
    (normalizeSpec "i1" 9
        ⟨"opencode", "S",
          [("type", js "message.part.updated"),
           ("properties", .jobj [("part", .jobj [("type", js "text"), ("text", js "hi")]),
             ("_role", js "user")])], none, none⟩).type = js "message.user" ∧
    (normalizeSpec "i2" 9
        ⟨"opencode", "S",
          [("type", js "message.part.updated"),
           ("properties", .jobj [("part", .jobj [("type", js "text"), ("text", js "ok")]),
             ("_role", js "assistant")])], none, none⟩).type = js "message.assistant" ∧
    (normalizeSpec "i3" 9
        ⟨"opencode", "S",
          [("type", js "message.part.updated"),
           ("properties", .jobj [("part", .jobj [("type", js "tool"), ("tool", js "read"),
             ("state", .jobj [("status", js "running")])])])], none, none⟩).type =
      js "tool.start" ∧
    (normalizeSpec "i4" 9
        ⟨"opencode", "S",
          [("type", js "message.part.updated"),
           ("properties", .jobj [("part", .jobj [("type", js "tool"), ("tool", js "read"),
             ("state", .jobj [("status", js "completed"), ("output", js "f")])])])],
          none, none⟩).type = js "tool.end" ∧
    (normalizeSpec "i5" 9
        ⟨"opencode", "S",
          [("type", js "message.updated"),
           ("properties", .jobj [("info", .jobj [("role", js "user")])])],
          none, none⟩).category = "system" := by
  refine ⟨?_, ?_, ?_, ?_, ?_⟩
  · exact (C1_opencode_dialect.1 "i1" 9 "S" _
      [("part", .jobj [("type", js "text"), ("text", js "hi")]), ("_role", js "user")]
      [("type", js "text"), ("text", js "hi")]
      (Or.inr (by decide)) (by decide) (by decide) (by decide) (by decide)).2.1
  · exact (C1_opencode_dialect.2.1 "i2" 9 "S" _
      [("part", .jobj [("type", js "text"), ("text", js "ok")]), ("_role", js "assistant")]
      [("type", js "text"), ("text", js "ok")]
      (Or.inr (by decide)) (by decide) (by decide) (by decide) (by decide)).2.1
  · exact (C1_opencode_dialect.2.2.1 "i3" 9 "S" _
      [("part", .jobj [("type", js "tool"), ("tool", js "read"),
        ("state", .jobj [("status", js "running")])])]
      [("type", js "tool"), ("tool", js "read"), ("state", .jobj [("status", js "running")])]
      [("status", js "running")]
      (Or.inr (by decide)) (by decide) (by decide) (by decide) (by decide) (by decide)).2.1
  · exact (C1_opencode_dialect.2.2.2.1 "i4" 9 "S" _
      [("part", .jobj [("type", js "tool"), ("tool", js "read"),
        ("state", .jobj [("status", js "completed"), ("output", js "f")])])]
      [("type", js "tool"), ("tool", js "read"),
        ("state", .jobj [("status", js "completed"), ("output", js "f")])]
      [("status", js "completed"), ("output", js "f")]
      (Or.inr (by decide)) (by decide) (by decide) (by decide) (by decide) (by decide)).2.1
  · exact (C1_opencode_dialect.2.2.2.2 "i5" 9 "S" _
      [("info", .jobj [("role", js "user")])]
      (by decide) (by decide) (by decide)).1

/-- A trace with no operation of client `c` and no room membership of `c`
delivers nothing to `c` and leaves `c` roomless. -/
theorem gRun_nonmember (c : Nat) (ops : List GOp)
    (hops : ∀ op ∈ ops, ¬ isClientOp c op) :
    ∀ st : GState, (∀ s, (c, s) ∉ st.rooms) →
      (gRun st ops).inbox c = st.inbox c ∧ ∀ s, (c, s) ∉ (gRun st ops).rooms := by
  induction ops with
  | nil => exact fun st h => ⟨rfl, h⟩
  | cons op ops ih =>
      intro st hmem
      rw [gRun_cons]
      have hop := hops op (List.mem_cons_self op ops)
      have hops' : ∀ op ∈ ops, ¬ isClientOp c op :=
        fun o ho => hops o (List.mem_cons_of_mem op ho)
      cases op with
      | subscribe c' sid =>
          have hc : c' ≠ c := fun h => hop h
          refine (ih hops' _ ?_).imp (fun h => ?_) id
          · intro s hs
            rcases List.mem_cons.mp hs with h | h
            · exact hc (congrArg Prod.fst h).symm
            · exact hmem s h
          · rw [h]
            simp only [gStep]
            rw [if_neg (fun hh => hc hh.symm)]
      | unsubscribe c' sid =>
          refine (ih hops' _ ?_).imp (fun h => h) id
          intro s hs
          exact hmem s (List.mem_of_mem_filter hs)
      | ingest e =>
          refine (ih hops' _ ?_).imp (fun h => ?_) id
          · exact hmem
          · rw [h]
            simp only [gStep]
            rw [if_neg (hmem e.sessionId)]

/-- After `c` has joined exactly the room `sid`, a trace without further
operations of `c` delivers to `c` exactly the live events ingested for
`sid`, in order, and preserves the membership. -/
theorem gRun_member (c : Nat) (sid : String) (ops : List GOp)
    (hops : ∀ op ∈ ops, ¬ isClientOp c op) :
    ∀ st : GState, (∀ s, (c, s) ∈ st.rooms ↔ s = sid) →
      (gRun st ops).inbox c = st.inbox c ++ (ingestedFor sid ops).map GMsg.live ∧
      (∀ s, (c, s) ∈ (gRun st ops).rooms ↔ s = sid) := by
  induction ops with
  | nil => exact fun st h => ⟨(List.append_nil _).symm, h⟩
  | cons op ops ih =>
      intro st hmem
      rw [gRun_cons]
      have hop := hops op (List.mem_cons_self op ops)
      have hops' : ∀ op ∈ ops, ¬ isClientOp c op :=
        fun o ho => hops o (List.mem_cons_of_mem op ho)
      cases op with
      | subscribe c' sid' =>
          have hc : c' ≠ c := fun h => hop h
          have hmem' : ∀ s, (c, s) ∈ (gStep st (.subscribe c' sid')).rooms ↔ s = sid := by
            intro s
            simp only [gStep, List.mem_cons]
            constructor
            · rintro (h | h)
              · exact absurd (congrArg Prod.fst h).symm hc
              · exact (hmem s).mp h
            · intro h
              exact Or.inr ((hmem s).mpr h)
          have hinbox : (gStep st (.subscribe c' sid')).inbox c = st.inbox c := by
            simp only [gStep]
            rw [if_neg (fun hh => hc hh.symm)]
          obtain ⟨h1, h2⟩ := ih hops' _ hmem'
          rw [h1, hinbox]
          exact ⟨rfl, h2⟩
      | unsubscribe c' sid' =>
          have hc : c' ≠ c := fun h => hop h
          have hmem' : ∀ s, (c, s) ∈ (gStep st (.unsubscribe c' sid')).rooms ↔ s = sid := by
            intro s
            simp only [gStep, List.mem_filter]
            constructor
            · rintro ⟨h, _⟩
              exact (hmem s).mp h
            · intro h
              refine ⟨(hmem s).mpr h, ?_⟩
              simp only [decide_eq_true_eq]
              intro hh
              exact hc (congrArg Prod.fst hh).symm
          obtain ⟨h1, h2⟩ := ih hops' _ hmem'
          rw [h1]
          exact ⟨rfl, h2⟩
      | ingest e =>
          have hmem' : ∀ s, (c, s) ∈ (gStep st (.ingest e)).rooms ↔ s = sid := hmem
          obtain ⟨h1, h2⟩ := ih hops' _ hmem'
          refine ⟨?_, h2⟩
          rw [h1]
          by_cases he : e.sessionId = sid
          · have hin : (c, e.sessionId) ∈ st.rooms := (hmem e.sessionId).mpr he
            simp only [gStep, if_pos hin]
            have : ingestedFor sid (GOp.ingest e :: ops) = e :: ingestedFor sid ops := by
              simp [ingestedFor, he]
            rw [this, List.map_cons, List.append_assoc]
            rfl
          · have hout : (c, e.sessionId) ∉ st.rooms := fun h => he ((hmem _).mp h)
            simp only [gStep, if_neg hout]
            have : ingestedFor sid (GOp.ingest e :: ops) = ingestedFor sid ops := by
              simp [ingestedFor, he]
            rw [this]

/-- C8: a client that subscribes once to a session first receives the
`session:events` snapshot holding exactly the events of that session
appended before the subscribe, and then, as live `event` deliveries in
order, exactly the events of that session appended after the subscribe —
nothing missing, nothing duplicated, and no live event before the
snapshot.  The subscribe handler (join, read history, emit) and the append
and broadcast section of the ingest handler are synchronous on the JS event
loop, so each is one atomic step of the trace. -/
theorem C8_subscribe_snapshot_then_live (pre post : List GOp) (c : Nat) (sid : String)
    (hpre : ∀ op ∈ pre, ¬ isClientOp c op) (hpost : ∀ op ∈ post, ¬ isClientOp c op) :
    (gRun gInit (pre ++ GOp.subscribe c sid :: post)).inbox c =
      GMsg.snapshot sid (gSessionEvents (gRun gInit pre).events sid) ::
        (ingestedFor sid post).map GMsg.live := by
  have hsplit : gRun gInit (pre ++ GOp.subscribe c sid :: post) =
      gRun (gStep (gRun gInit pre) (GOp.subscribe c sid)) post := by
    rw [gRun, List.foldl_append, List.foldl_cons]
    rfl
  obtain ⟨hpreinbox, hprerooms⟩ :=
    gRun_nonmember c pre hpre gInit (fun s h => List.not_mem_nil _ h)
  set st1 := gRun gInit pre
  have hmem : ∀ s, (c, s) ∈ (gStep st1 (GOp.subscribe c sid)).rooms ↔ s = sid := by
    intro s
    simp only [gStep, List.mem_cons]
    constructor
    · rintro (h | h)
      · exact (Prod.ext_iff.mp h).2
      · exact absurd h (hprerooms s)
    · rintro rfl
      exact Or.inl rfl
  have hinbox1 : (gStep st1 (GOp.subscribe c sid)).inbox c =
      [GMsg.snapshot sid (gSessionEvents st1.events sid)] := by
    simp only [gStep]
    rw [if_pos trivial, hpreinbox]
    rfl
  obtain ⟨h1, _⟩ := gRun_member c sid post hpost _ hmem
  rw [hsplit, h1, hinbox1]
  rfl

/-- Witness for C8 at a concrete trace: two prior ingests (one for the
session, one for another), the subscribe, then one live ingest for the
session and one for the other session. -/
theorem C8_witness :
    (∀ op ∈ [GOp.ingest ⟨"s", 1⟩, GOp.ingest ⟨"t", 2⟩], ¬ isClientOp 7 op) ∧
    (∀ op ∈ [GOp.ingest ⟨"s", 3⟩, GOp.ingest ⟨"t", 4⟩], ¬ isClientOp 7 op) ∧
    (gRun gInit ([GOp.ingest ⟨"s", 1⟩, GOp.ingest ⟨"t", 2⟩] ++ GOp.subscribe 7 "s" ::
        [GOp.ingest ⟨"s", 3⟩, GOp.ingest ⟨"t", 4⟩])).inbox 7 =
      GMsg.snapshot "s"
          (gSessionEvents (gRun gInit [GOp.ingest ⟨"s", 1⟩, GOp.ingest ⟨"t", 2⟩]).events "s") ::
        (ingestedFor "s" [GOp.ingest ⟨"s", 3⟩, GOp.ingest ⟨"t", 4⟩]).map GMsg.live := by
  refine ⟨by decide, by decide, ?_⟩
  exact C8_subscribe_snapshot_then_live
    [GOp.ingest ⟨"s", 1⟩, GOp.ingest ⟨"t", 2⟩] [GOp.ingest ⟨"s", 3⟩, GOp.ingest ⟨"t", 4⟩]
    7 "s" (by decide) (by decide)

/-- C2 counterexample: the identity-provider endpoints live under
`/api/auth/` and are served without credentials (the repository's own auth
tests sign up and sign in on them unauthenticated), so "every `/api/*` call
except `/health` returns 401" fails at `/api/auth/sign-up/email`: the
admission middleware does not short-circuit it with a 401. -/
theorem C2_counterexample :
    gate (fun _ => none) ⟨"POST", "/api/auth/sign-up/email", none, none⟩ emptyStore = none ∧
    isApiPath "/api/auth/sign-up/email" = true ∧
    "/api/auth/sign-up/email" ≠ "/health" := by
  refine ⟨rfl, by decide, by decide⟩

/-- C2 amended: every `/api/*` request other than `/health` and the
identity-provider endpoints under `/api/auth/` is short-circuited by the
admission middleware, when the credential verifier fails, with status 401
and body `\x7b"error":"Unauthorized"\x7d`, the store untouched; a realtime
handshake without a verified credential is rejected with the reason
`Authentication required`. -/
theorem C2_unauthenticated_reject :
    (∀ (verify : HttpRequest → Option String) (req : HttpRequest) (st : Store),
      verify req = none → isApiPath req.path = true → isAuthProviderPath req.path = false →
      req.path ≠ "/health" →
      gate verify req st = some ((401, unauthorizedBody), st)) ∧
    (∀ (verify : HttpRequest → Option String) (req : HttpRequest),
      verify req = none → socketHandshake verify req = .error "Authentication required") := by
  constructor
  · intro verify req st hv hapi hauth hhealth
    rw [gate, authAdmission, if_neg hhealth, hauth]
    simp only [Bool.false_eq_true, if_neg, ite_false, hapi]
    rw [if_neg (by simp), hv]
  · intro verify req hv
    rw [socketHandshake, hv]

/-- Witness for C2 amended: a concrete credential-less `GET /api/sessions`
and a credential-less handshake. -/
theorem C2_witness :
    gate (fun _ => none) ⟨"GET", "/api/sessions", none, none⟩ emptyStore =
      some ((401, unauthorizedBody), emptyStore) ∧
    socketHandshake (fun _ => none) ⟨"GET", "/socket.io/", none, none⟩ =
      .error "Authentication required" :=
  ⟨C2_unauthenticated_reject.1 (fun _ => none) ⟨"GET", "/api/sessions", none, none⟩
      emptyStore rfl (by decide) (by decide) (by decide),
    C2_unauthenticated_reject.2 (fun _ => none) ⟨"GET", "/socket.io/", none, none⟩ rfl⟩

/-- C9 counterexample: an ingest whose payload carries an empty `user`
object and a `git` object.  The handler reads no `git` field and skips an
empty `user`, so the session metadata gains neither key — the claim demands
a `git` entry. -/
theorem C9_counterexample :
    metaLookup
        (ingestAfterNormalize
          { id := "e1", sessionId := "s", timestamp := 1, source := "claude-code",
            category := "session", type := "session.start" }
          (some []) (some [("commit", js "abc")])
          ⟨[⟨"s", "claude-code", 0, 0, "active", [("x", js "1")]⟩], []⟩) "s" "git" = none ∧
    metaLookup
        (ingestAfterNormalize
          { id := "e1", sessionId := "s", timestamp := 1, source := "claude-code",
            category := "session", type := "session.start" }
          (some []) (some [("commit", js "abc")])
          ⟨[⟨"s", "claude-code", 0, 0, "active", [("x", js "1")]⟩], []⟩) "s" "user" = none :=
  ⟨rfl, rfl⟩

/-- C9 amended: the ingest handler ignores the `git` field entirely; a
provided non-empty `user` object is shallow-merged into the session
metadata under the key `user`, and every other metadata key is unchanged
relative to the post-append state. -/
theorem C9_user_meta_merge :
    (∀ (e : AgentDogEvent) (user git : Option (List (String × JValue))) (st : Store),
      ingestAfterNormalize e user git st = ingestAfterNormalize e user none st) ∧
    (∀ (e : AgentDogEvent) (u : List (String × JValue))
        (git : Option (List (String × JValue))) (st : Store), u ≠ [] →
      metaLookup (ingestAfterNormalize e (some u) git st) e.sessionId "user" =
        some (.jobj u) ∧
      (∀ k : String, k ≠ "user" →
        metaLookup (ingestAfterNormalize e (some u) git st) e.sessionId k =
          metaLookup (addEvent e st) e.sessionId k)) := by
  refine ⟨fun e user git st => rfl, fun e u git st hu => ?_⟩
  have hne : u.isEmpty = false := by
    cases u with
    | nil => exact absurd rfl hu
    | cons a tl => rfl
  have hstep : ingestAfterNormalize e (some u) git st =
      updateSessionMeta e.sessionId [("user", .jobj u)] (addEvent e st) := by
    rw [ingestAfterNormalize]
    simp only [hne, Bool.false_eq_true, if_neg, ite_false]
  have hrow := addEvent_find e st
  have hafter : ∀ k, metaLookup (addEvent e st) e.sessionId k =
      (sessionRowAfter e st).metadata.lookup k := by
    intro k
    simp only [metaLookup, hrow]
  constructor
  · rw [hstep, updateSessionMeta_metaLookup e.sessionId _ _ _ hrow,
      mergeObj_lookup]
    cases h : (sessionRowAfter e st).metadata.lookup "user" <;> rfl
  · intro k hk
    have hpk : (([("user", JValue.jobj u)] : List (String × JValue)).lookup k) = none := by
      rw [List.lookup_cons]
      cases hbeq : k == "user" with
      | true => exact absurd (by simpa using hbeq) hk
      | false => rfl
    rw [hstep, updateSessionMeta_metaLookup e.sessionId _ _ _ hrow, mergeObj_lookup, hpk,
      hafter k]
    cases h : (sessionRowAfter e st).metadata.lookup k <;> rfl

/-- Witness for C9 amended at a concrete ingest: a non-empty user object
lands under the `user` key and an unrelated key is untouched. -/
theorem C9_witness :
    metaLookup
        (ingestAfterNormalize
          { id := "w1", sessionId := "s", timestamp := 1, source := "claude-code",
            category := "session", type := "session.start" }
          (some [("name", js "Ben")]) none emptyStore) "s" "user" =
      some (.jobj [("name", js "Ben")]) ∧
    metaLookup
        (ingestAfterNormalize
          { id := "w1", sessionId := "s", timestamp := 1, source := "claude-code",
            category := "session", type := "session.start" }
          (some [("name", js "Ben")]) none emptyStore) "s" "x" =
      metaLookup
        (addEvent
          { id := "w1", sessionId := "s", timestamp := 1, source := "claude-code",
            category := "session", type := "session.start" }
          emptyStore) "s" "x" := by
  have h := C9_user_meta_merge.2
    { id := "w1", sessionId := "s", timestamp := 1, source := "claude-code",
      category := "session", type := "session.start" }
    [("name", js "Ben")] none emptyStore (by simp)
  exact ⟨h.1, h.2 "x" (by decide)⟩

/-- C6: for a stored-`active` session whose `lastEventTime` is more than
120 000 ms before now, `getSession` returns effective status `completed`
while the stored status stays `active` (the read is pure); within the
threshold the effective status stays `active`. -/
theorem C6_stale_autocomplete :
    ∀ (now : Int) (st : Store) (id : String) (row : SessionRow),
      st.sessions.find? (fun r => r.id = id) = some row →
      row.status = "active" →
      ((now - row.lastEventTime > STALE_TIMEOUT →
          (getSession now st id).map (·.status) = some "completed" ∧
          storedStatus st id = some "active") ∧
        (now - row.lastEventTime ≤ STALE_TIMEOUT →
          (getSession now st id).map (·.status) = some "active" ∧
          storedStatus st id = some "active")) := by
  intro now st id row hf hs
  have hstored : storedStatus st id = some "active" := by
    rw [storedStatus, hf, Option.map_some', hs]
  constructor
  · intro hstale
    refine ⟨?_, hstored⟩
    rw [getSession, hf, Option.map_some', Option.map_some']
    show some (deriveStatus now row.status row.lastEventTime) = some "completed"
    rw [deriveStatus, hs]
    rw [if_neg (by decide), if_neg (by decide), if_pos hstale]
  · intro hfresh
    refine ⟨?_, hstored⟩
    rw [getSession, hf, Option.map_some', Option.map_some']
    show some (deriveStatus now row.status row.lastEventTime) = some "active"
    rw [deriveStatus, hs]
    rw [if_neg (by decide), if_neg (by decide), if_neg (by omega)]

/-- Witness for C6 at a concrete store: the same stored-`active` row read
at a stale clock (200 000) and at a fresh clock (50 000). -/
theorem C6_witness :
    ((getSession 200000 ⟨[⟨"s", "claude-code", 0, 0, "active", []⟩], []⟩ "s").map (·.status) =
        some "completed" ∧
      storedStatus ⟨[⟨"s", "claude-code", 0, 0, "active", []⟩], []⟩ "s" = some "active") ∧
    ((getSession 50000 ⟨[⟨"s", "claude-code", 0, 0, "active", []⟩], []⟩ "s").map (·.status) =
        some "active") := by
  refine ⟨?_, ?_⟩
  · exact (C6_stale_autocomplete 200000 ⟨[⟨"s", "claude-code", 0, 0, "active", []⟩], []⟩ "s"
      ⟨"s", "claude-code", 0, 0, "active", []⟩ rfl rfl).1 (by norm_num [STALE_TIMEOUT])
  · exact ((C6_stale_autocomplete 50000 ⟨[⟨"s", "claude-code", 0, 0, "active", []⟩], []⟩ "s"
      ⟨"s", "claude-code", 0, 0, "active", []⟩ rfl rfl).2 (by norm_num [STALE_TIMEOUT])).1

/-- C10: the effective status computed by `deriveStatus` (hence what
`getSession`/`listSessions` return) is always one of `active`, `completed`,
`error` — never `archived`; a stored `archived` (or any other unrecognised
stored value) surfaces as `completed` when stale and `active` otherwise. -/
theorem C10_no_archived_effective_status :
    (∀ (now : Int) (status : String) (t : Int),
      deriveStatus now status t = "active" ∨ deriveStatus now status t = "completed" ∨
        deriveStatus now status t = "error") ∧
    (∀ (now t : Int), deriveStatus now "archived" t =
      if now - t > STALE_TIMEOUT then "completed" else "active") ∧
    (∀ (now : Int) (st : Store) (id : String) (v : SessionView),
      getSession now st id = some v →
      (v.status = "active" ∨ v.status = "completed" ∨ v.status = "error") ∧
        v.status ≠ "archived") ∧
    (∀ (now : Int) (st : Store) (v : SessionView),
      v ∈ listSessions now st →
      (v.status = "active" ∨ v.status = "completed" ∨ v.status = "error") ∧
        v.status ≠ "archived") := by
  have hd : ∀ (now : Int) (status : String) (t : Int),
      deriveStatus now status t = "active" ∨ deriveStatus now status t = "completed" ∨
        deriveStatus now status t = "error" := by
    intro now status t
    rw [deriveStatus]
    split
    · exact Or.inr (Or.inr rfl)
    · split
      · exact Or.inr (Or.inl rfl)
      · split
        · exact Or.inr (Or.inl rfl)
        · exact Or.inl rfl
  have hne : ∀ s : String, (s = "active" ∨ s = "completed" ∨ s = "error") → s ≠ "archived" := by
    rintro s (rfl | rfl | rfl) <;> decide
  refine ⟨hd, fun now t => ?_, fun now st id v hv => ?_, fun now st v hv => ?_⟩
  · rw [deriveStatus, if_neg (by decide), if_neg (by decide)]
  · rcases Option.map_eq_some'.mp hv with ⟨row, _, hrow⟩
    have : v.status = deriveStatus now row.status row.lastEventTime := by
      rw [← hrow]; rfl
    rw [this]
    exact ⟨hd _ _ _, hne _ (hd _ _ _)⟩
  · rcases List.mem_map.mp hv with ⟨row, _, hrow⟩
    have : v.status = deriveStatus now row.status row.lastEventTime := by
      rw [← hrow]; rfl
    rw [this]
    exact ⟨hd _ _ _, hne _ (hd _ _ _)⟩

/-- Witness for the hypothesis-bearing parts of C10: a concrete session
stored as `archived` surfaces as `active` through both `getSession` and
`listSessions`. -/
theorem C10_witness :
    ((getSession 10 ⟨[⟨"s", "claude-code", 0, 0, "archived", []⟩], []⟩ "s").map (·.status) =
        some (deriveStatus 10 "archived" 0) ∧
      ((viewOfRow 10 ⟨[⟨"s", "claude-code", 0, 0, "archived", []⟩], []⟩
          ⟨"s", "claude-code", 0, 0, "archived", []⟩).status = "active" ∨
        (viewOfRow 10 ⟨[⟨"s", "claude-code", 0, 0, "archived", []⟩], []⟩
          ⟨"s", "claude-code", 0, 0, "archived", []⟩).status = "completed" ∨
        (viewOfRow 10 ⟨[⟨"s", "claude-code", 0, 0, "archived", []⟩], []⟩
          ⟨"s", "claude-code", 0, 0, "archived", []⟩).status = "error") ∧
      (viewOfRow 10 ⟨[⟨"s", "claude-code", 0, 0, "archived", []⟩], []⟩
          ⟨"s", "claude-code", 0, 0, "archived", []⟩).status ≠ "archived") ∧
    deriveStatus 10 "archived" 0 = "active" := by
  refine ⟨⟨rfl, ?_⟩, ?_⟩
  · exact C10_no_archived_effective_status.2.2.1 10
      ⟨[⟨"s", "claude-code", 0, 0, "archived", []⟩], []⟩ "s" _ rfl
  · rw [C10_no_archived_effective_status.2.1 10 0, if_neg (by decide)]

/-- Witness for the hypothesis-bearing part of C5 amended: a concrete
in-order append does not decrease `lastEventTime`. -/
theorem C5_witness :
    storedLastEventTime
        (addEvent
          { id := "w2", sessionId := "s", timestamp := 7, source := "claude-code",
            category := "message", type := "message.user" }
          ⟨[⟨"s", "claude-code", 5, 5, "active", []⟩], []⟩) "s" = some 7 ∧
    (5 : Int) ≤ 7 :=
  ⟨C5_lastEventTime_tracks_append.1 _ _,
    C5_lastEventTime_tracks_append.2
      { id := "w2", sessionId := "s", timestamp := 7, source := "claude-code",
        category := "message", type := "message.user" }
      ⟨[⟨"s", "claude-code", 5, 5, "active", []⟩], []⟩ 5 7 rfl (by norm_num)
      (C5_lastEventTime_tracks_append.1 _ _)⟩

/-- C4: a `toolOutput` whose serialised form exceeds 10 000 characters is
stored as its first 10 000 serialised characters followed by the literal
marker `... [truncated, N chars total]` with `N` the original serialised
length; every stored `toolOutput` serialises to at most 10 000 plus the
marker length; a `toolOutput` of at most 10 000 serialised characters
passes through unchanged; and the normalizer (`PostToolUse` branch) routes
`toolOutput` through this limiter. -/
theorem C4_toolOutput_truncation :
    (∀ v : JValue, (serialForm v).length > MAX_OUTPUT_SIZE →
      truncate v =
        .jstr ((serialForm v).take MAX_OUTPUT_SIZE ++ truncMarker (serialForm v).length)) ∧
    (∀ v : JValue,
      (serialForm (truncate v)).length ≤
        MAX_OUTPUT_SIZE + (truncMarker (serialForm v).length).length) ∧
    (∀ v : JValue, (serialForm v).length ≤ MAX_OUTPUT_SIZE → truncate v = v) ∧
    (∀ (freshId : String) (now : Int) (p : IngestPayload),
      pick p.event ["hook_event_name", "event", "type"] (js "") = js "PostToolUse" →
      (normalizeClaudeCode freshId now p).toolOutput =
        truncate (pick p.event ["tool_response", "tool_output", "toolOutput"] .jnull)) := by
  refine ⟨fun v h => ?_, fun v => ?_, fun v h => ?_, fun freshId now p h => ?_⟩
  · rw [truncate_eq, if_pos h]
  · rw [truncate_eq]
    by_cases h : (serialForm v).length > MAX_OUTPUT_SIZE
    · rw [if_pos h]
      simp only [serialForm, List.length_append, List.length_take]
      omega
    · rw [if_neg h]
      omega
  · rw [truncate_eq, if_neg (by omega)]
  · simp only [normalizeClaudeCode, h]
    simp +decide [js]

/-- C7 counterexample: a payload whose `timestamp` field is present but
non-numeric (`"yesterday"`).  The claim demands the output timestamp equal
"now" (`1234`), but the normalizer uses nullish coalescing, so the
non-numeric value passes through unchanged. -/
theorem C7_counterexample :
    (normalize "id0" 1234
        ⟨"claude-code", "S1",
          [("timestamp", js "yesterday"), ("hook_event_name", js "SessionStart")],
          none, none⟩).timestamp = js "yesterday" ∧
    js "yesterday" ≠ JValue.jnum 1234 := by
  exact ⟨rfl, by decide⟩

/-- C7 amended: the output timestamp equals the raw payload `timestamp`
field whenever that field is present and non-null — numeric or not — and
equals "now" exactly when the field is absent or null (the code uses `??`,
which tests nullishness, not numericity). -/
theorem C7_timestamp_rule :
    (∀ (freshId : String) (now : Int) (p : IngestPayload) (v : JValue),
      getField p.event "timestamp" = some v → v ≠ .jnull →
      (normalize freshId now p).timestamp = v) ∧
    (∀ (freshId : String) (now : Int) (p : IngestPayload),
      (getField p.event "timestamp" = none ∨ getField p.event "timestamp" = some .jnull) →
      (normalize freshId now p).timestamp = .jnum now) := by
  constructor
  · intro freshId now p v hv hnn
    rw [normalize_timestamp, hv]
    cases v with
    | jnull => exact absurd rfl hnn
    | jbool b => rfl
    | jnum n => rfl
    | jstr s => rfl
    | jarr xs => rfl
    | jobj fs => rfl
  · intro freshId now p hv
    rw [normalize_timestamp]
    rcases hv with h | h <;> rw [h] <;> rfl

/-- Witness for C7 amended at concrete inputs: a present non-null
timestamp (numeric and non-numeric alike pass through) and an absent one. -/
theorem C7_witness :
    (getField [("timestamp", JValue.jnum 77)] "timestamp" = some (JValue.jnum 77) ∧
      (normalize "id0" 1234
          ⟨"claude-code", "S1", [("timestamp", JValue.jnum 77)], none, none⟩).timestamp =
        JValue.jnum 77) ∧
    (getField ([] : List (String × JValue)) "timestamp" = none ∧
      (normalize "id0" 1234 ⟨"claude-code", "S1", [], none, none⟩).timestamp =
        JValue.jnum 1234) := by
  refine ⟨⟨rfl, ?_⟩, ⟨rfl, ?_⟩⟩
  · exact C7_timestamp_rule.1 "id0" 1234 _ _ rfl (by decide)
  · exact C7_timestamp_rule.2 "id0" 1234 _ (Or.inl rfl)

/-- Witness for C4 at concrete inputs: an oversized 10 001-character
string, an in-bounds string, and a concrete `PostToolUse` payload. -/
theorem C4_witness :
    ((serialForm (.jstr (List.replicate 10001 'a'))).length > MAX_OUTPUT_SIZE ∧
      truncate (.jstr (List.replicate 10001 'a')) =
        .jstr ((serialForm (.jstr (List.replicate 10001 'a'))).take MAX_OUTPUT_SIZE ++
          truncMarker (serialForm (.jstr (List.replicate 10001 'a'))).length)) ∧
    truncate (js "ok") = js "ok" ∧
    (normalizeClaudeCode "id0" 5
        ⟨"claude-code", "S1",
          [("hook_event_name", js "PostToolUse"), ("tool_output", js "ok")], none, none⟩).toolOutput =
      truncate (pick [("hook_event_name", js "PostToolUse"), ("tool_output", js "ok")]
        ["tool_response", "tool_output", "toolOutput"] .jnull) := by
  have h1 : (serialForm (JValue.jstr (List.replicate 10001 'a'))).length > MAX_OUTPUT_SIZE := by
    show (List.replicate 10001 'a').length > MAX_OUTPUT_SIZE
    rw [List.length_replicate]
    norm_num [MAX_OUTPUT_SIZE]
  have h2 : (serialForm (js "ok")).length ≤ MAX_OUTPUT_SIZE := by decide
  have h3 : pick ([("hook_event_name", js "PostToolUse"), ("tool_output", js "ok")])
      ["hook_event_name", "event", "type"] (js "") = js "PostToolUse" := by rfl
  exact ⟨⟨h1, C4_toolOutput_truncation.1 _ h1⟩,
    C4_toolOutput_truncation.2.2.1 _ h2,
    C4_toolOutput_truncation.2.2.2 "id0" 5 _ h3⟩

end AgentDog
